import Mathlib

/-!
Shallow embedding of `sndcpy.py`, an Android audio streaming client.

The program is a single-process sequential workflow
(`SndcpyClient.run`): check adb → check device → set up the app →
connect a TCP socket → stream audio chunks to a local audio sink,
with a `finally` cleanup in `main`.  We model one run of the process
as a function from an environment oracle (`World`: what the external
adb calls return, whether the socket connect succeeds, which byte
chunks the peer sends) to the list of externally observable events
(`Ev`) plus the process exit status.  Each stage function below is a
direct transcription of the corresponding Python method.
-/

set_option maxRecDepth 4000

namespace Sndcpy

/-- Does `needle` occur at the head of `hay`? Helper for substring tests. -/
def charsLe : List Char → List Char → Bool
  | [], _ => true
  | _ :: _, [] => false
  | a :: as, b :: bs => (a == b) && charsLe as bs

/-- Does `needle` occur anywhere in `hay`? Helper for substring tests. -/
def charsIn : List Char → List Char → Bool
  | needle, [] => charsLe needle []
  | needle, b :: t => charsLe needle (b :: t) || charsIn needle t

/-- Models the Python membership test `needle in hay` on strings. -/
def containsStr (hay needle : String) : Bool :=
  charsIn needle.toList hay.toList

/-- Constant `SndcpyClient.PACKAGE_NAME`. -/
def packageName : String := "com.rom1v.sndcpy"

/-- Constant `BUFFER_SIZE`: maximum number of bytes requested per socket read. -/
def bufferSize : Nat := 4096

/-- Constant `max_wait_time` (seconds) in `_wait_for_notification_permission`. -/
def maxWaitTime : Nat := 30

/-- Constant `check_interval` (seconds) between polls in `_wait_for_notification_permission`. -/
def checkInterval : Nat := 2

/-- Maximum number of polls one wait loop makes: poll `k` happens at elapsed
time `k * check_interval`, and the loop runs while the elapsed time is
`< max_wait_time`, so at most `max_wait_time / check_interval = 15` polls. -/
def maxPolls : Nat := maxWaitTime / checkInterval

/-- Externally observable events of one run: subprocess invocations
(`call…`), socket operations, audio-sink operations, playback-loop reads
and writes, and teardown. -/
inductive Ev where
  | callAdbVersion : Ev
  | callGetState : Ev
  | callPmList : Ev
  | callInstall : Ev
  | callAppops : Ev
  | callForward (port : Nat) : Ev
  | callAmStart : Ev
  | callSettingsGet : Ev
  | callDumpsys : Ev
  | socketCreate : Ev
  | connectAttempt (port : Nat) : Ev
  | connectOk : Ev
  | connectFail : Ev
  | sinkOpen : Ev
  | recv (n : Nat) : Ev
  | sinkWrite (chunk : List Nat) : Ev
  | loopExit : Ev
  | sinkClose : Ev
  | pyaudioTerminate : Ev
  | socketClose : Ev
deriving DecidableEq, Repr

/-- Environment oracle for one run: everything the process observes from
the outside world.  `adbInvocable` is whether running `adb` raises
`FileNotFoundError`; the `…Rc` fields are subprocess return codes (the
install / appops / forward / am-start codes are captured by the code but
never branched on); `permInit` is the result of the first notification
permission check; `permPoll k` / `servicePoll k` are the results of the
k-th poll inside the two wait loops; `chunks` is the sequence of byte
chunks `socket.recv` yields before the peer closes (after the list is
exhausted, `recv` returns the empty chunk). -/
structure World where
  port : Nat
  adbInvocable : Bool
  adbVersionRc : Nat
  getStateOut : String
  apkExists : Bool
  pmListOut : String
  installRc : Nat
  appopsRc : Nat
  forwardRc : Nat
  amStartRc : Nat
  permInit : Bool
  permPoll : Nat → Bool
  servicePoll : Nat → Bool
  connectOk : Bool
  chunks : List (List Nat)

/-- The `adb version` check succeeds iff the binary is invocable and its
return code is 0 (`SndcpyClient._check_adb` raises otherwise). -/
def adbOk (w : World) : Bool :=
  w.adbInvocable && w.adbVersionRc == 0

/-- Models `SndcpyClient._check_adb`: run `adb version`; on `FileNotFoundError`
(binary missing, or re-raised on a nonzero return code) exit 1. -/
def checkAdb (w : World) : List Ev × Option Nat :=
  ([Ev.callAdbVersion], if adbOk w then none else some 1)

/-- The device check succeeds iff `"device"` occurs in the stdout of
`adb get-state`. -/
def deviceOk (w : World) : Bool :=
  containsStr w.getStateOut "device"

/-- Models `SndcpyClient._check_device`: run `adb get-state`; exit 1 unless
`"device"` occurs in its stdout. -/
def checkDevice (w : World) : List Ev × Option Nat :=
  ([Ev.callGetState], if deviceOk w then none else some 1)

/-- One bounded poll loop of `_wait_for_notification_permission`:
`pollPhaseAux poll k r` polls starting at index `k` with `r` poll slots
remaining; it stops early when a poll succeeds.  Returns (whether a poll
succeeded, total number of polls made). -/
def pollPhaseAux (poll : Nat → Bool) : Nat → Nat → Bool × Nat
  | k, 0 => (false, k)
  | k, r + 1 => if poll k then (true, k + 1) else pollPhaseAux poll (k + 1) r

/-- A full bounded poll loop: while the elapsed time is below
`max_wait_time`, poll and sleep `check_interval`; hence at most
`maxPolls` polls. -/
def pollPhase (poll : Nat → Bool) : Bool × Nat :=
  pollPhaseAux poll 0 maxPolls

/-- Models `SndcpyClient._wait_for_notification_permission`: poll (bounded) for
the notification-listener permission, then poll (bounded) for the
`RecordService` entry; neither timeout is fatal.  Returns whether the
permission was detected (which is what sets `metadata_enabled`) and the
subprocess events the polls produced. -/
def waitForNotificationPermission (w : World) : Bool × List Ev :=
  let p1 := pollPhase w.permPoll
  let p2 := pollPhase w.servicePoll
  (p1.1, List.replicate p1.2 Ev.callSettingsGet ++ List.replicate p2.2 Ev.callDumpsys)

/-- Models `SndcpyClient._setup_app`: exit 1 if the APK file is absent;
otherwise query `pm list packages` and install only when the package
name does not occur in the output (the install result is captured and
logged, never branched on); then always run the appops grant, the port
forward and the activity launch (results likewise only captured); then
check the notification permission once and, if absent, run the bounded
wait.  Returns (events, exit, metadata_enabled). -/
def setupApp (w : World) : List Ev × Option Nat × Bool :=
  if w.apkExists then
    let installEvs := if containsStr w.pmListOut packageName then [] else [Ev.callInstall]
    let baseEvs := Ev.callPmList :: installEvs ++
      [Ev.callAppops, Ev.callForward w.port, Ev.callAmStart, Ev.callSettingsGet]
    if w.permInit then
      (baseEvs, none, true)
    else
      let r := waitForNotificationPermission w
      (baseEvs ++ r.2, none, r.1)
  else
    ([], some 1, false)

/-- Models `SndcpyClient._connect`: create a socket and connect to
`127.0.0.1:port`; on `socket.error` exit 1. -/
def connectStage (w : World) : List Ev × Option Nat :=
  if w.connectOk then
    ([Ev.socketCreate, Ev.connectAttempt w.port, Ev.connectOk], none)
  else
    ([Ev.socketCreate, Ev.connectAttempt w.port, Ev.connectFail], some 1)

/-- The `while True` body of `SndcpyClient._stream`: `recv` up to
`BUFFER_SIZE` bytes; an empty result means the peer closed — break out
of the loop; otherwise write the chunk to the audio sink and continue.
After `chunks` is exhausted the next `recv` yields the empty chunk. -/
def streamLoop : List (List Nat) → List Ev
  | [] => [Ev.recv 0, Ev.loopExit]
  | c :: rest =>
    if c.isEmpty then [Ev.recv 0, Ev.loopExit]
    else Ev.recv c.length :: Ev.sinkWrite c :: streamLoop rest

/-- Models `SndcpyClient._stream`: open the audio sink, then run the playback
loop. -/
def streamStage (w : World) : List Ev :=
  Ev.sinkOpen :: streamLoop w.chunks

/-- Models `SndcpyClient.cleanup`: each resource handle is checked before
release; the audio stream is stopped and closed, the pyaudio instance
terminated, the socket closed. -/
def cleanupEvs (sockSet sinkSet : Bool) : List Ev :=
  (if sinkSet then [Ev.sinkClose, Ev.pyaudioTerminate] else []) ++
    (if sockSet then [Ev.socketClose] else [])

/-- Result of one run of the process: the event trace, the process exit
status (0 on a normal return, the `sys.exit` code otherwise; `main`
wraps `run()` in `try/finally cleanup()`, so cleanup events also appear
on the exit paths), and the final `metadata_enabled` flag. -/
structure RunResult where
  trace : List Ev
  exitCode : Nat
  meta : Bool
deriving DecidableEq, Repr

/-- Models `main` plus `SndcpyClient.run`: the four stages in order; `sys.exit(c)`
aborts the remaining stages, the `finally` block still runs `cleanup`,
and the process exits with `c`.  A run that completes the playback loop
exits 0. -/
def runMain (w : World) : RunResult :=
  let s1 := checkAdb w
  match s1.2 with
  | some c => ⟨s1.1 ++ cleanupEvs false false, c, false⟩
  | none =>
    let s2 := checkDevice w
    match s2.2 with
    | some c => ⟨s1.1 ++ s2.1 ++ cleanupEvs false false, c, false⟩
    | none =>
      let s3 := setupApp w
      match s3.2.1 with
      | some c => ⟨s1.1 ++ s2.1 ++ s3.1 ++ cleanupEvs false false, c, false⟩
      | none =>
        let s4 := connectStage w
        match s4.2 with
        | some c => ⟨s1.1 ++ s2.1 ++ s3.1 ++ s4.1 ++ cleanupEvs true false, c, s3.2.2⟩
        | none =>
          let s5 := streamStage w
          ⟨s1.1 ++ s2.1 ++ s3.1 ++ s4.1 ++ s5 ++ cleanupEvs true true, 0, s3.2.2⟩

/-- The chunks written to the audio sink, in order, extracted from a
trace. -/
def writesOf : List Ev → List (List Nat)
  | [] => []
  | Ev.sinkWrite c :: rest => c :: writesOf rest
  | _ :: rest => writesOf rest

/-- Open/closed state of the Stream Connection (socket) and the Audio
Sink at a point of a run. -/
structure RState where
  sockOpen : Bool
  sinkOpen : Bool
deriving DecidableEq, Repr

/-- How each event changes the resource state: the socket becomes open
when the connect succeeds and closed at `socket.close()`; the sink
becomes open at `pyaudio.open` and closed at `stream.close()`. -/
def stepState (s : RState) : Ev → RState
  | Ev.connectOk => ⟨true, s.sinkOpen⟩
  | Ev.socketClose => ⟨false, s.sinkOpen⟩
  | Ev.sinkOpen => ⟨s.sockOpen, true⟩
  | Ev.sinkClose => ⟨s.sockOpen, false⟩
  | _ => s

/-- Is this event a playback-loop iteration (a socket read or a sink
write)? -/
def isLoopIter : Ev → Bool
  | Ev.recv _ => true
  | Ev.sinkWrite _ => true
  | _ => false

/-- Parsed CLI arguments (`argparse` surface of `main`). -/
structure Args where
  apkPath : String
  serial : Option String
  port : Int
  debug : Bool
deriving DecidableEq, Repr

/-- Does the token start with a dash? (Kernel-reducible replacement for
the option-versus-positional test.) -/
def dashLeading (t : String) : Bool :=
  match t.toList with
  | c :: _ => c == '-'
  | [] => false

/-- Models the `argparse` configuration of `main` on the used surface:
one optional positional `apk_path` (default `"sndcpy.apk"`), options
`-s or --serial <str>`, `-p or --port <int>`, `-d or --debug`; a second
positional is an unrecognized argument and any parse error makes
`argparse` exit (modelled as `none`). -/
def parseTokens : List String → Option String → Option String → Int → Bool →
    List String → Option Args
  | [], apk, serial, port, debug, extras =>
    if extras.isEmpty then some ⟨apk.getD "sndcpy.apk", serial, port, debug⟩ else none
  | t :: rest, apk, serial, port, debug, extras =>
    if t = "-s" || t = "--serial" then
      match rest with
      | [] => none
      | v :: rest2 => parseTokens rest2 apk (some v) port debug extras
    else if t = "-p" || t = "--port" then
      match rest with
      | [] => none
      | v :: rest2 =>
        match v.toInt? with
        | some n => parseTokens rest2 apk serial n debug extras
        | none => none
    else if t = "-d" || t = "--debug" then
      parseTokens rest apk serial port true extras
    else if dashLeading t && t ≠ "-" then none
    else
      match apk with
      | none => parseTokens rest (some t) serial port debug extras
      | some _ => parseTokens rest apk serial port debug (extras ++ [t])

/-- Parse a full argument vector (excluding the program name). -/
def parseArgs (argv : List String) : Option Args :=
  parseTokens argv none none 28200 false []

/-- The adb command prefix built in `SndcpyClient.__init__`: `["adb"]`
plus `["-s", serial]` when a serial was given. -/
def adbCmdOf (serial : Option String) : List String :=
  match serial with
  | some s => ["adb", "-s", s]
  | none => ["adb"]

/-! Helper lemmas: which events each trace segment can contain. -/

lemma mem_streamLoop_cases {e : Ev} :
    ∀ {chunks : List (List Nat)}, e ∈ streamLoop chunks →
    (∃ n, e = Ev.recv n) ∨ (∃ c, e = Ev.sinkWrite c) ∨ e = Ev.loopExit := by
  intro chunks
  induction chunks with
  | nil =>
    intro h
    simp only [streamLoop, List.mem_cons, List.not_mem_nil, or_false] at h
    rcases h with h | h
    · exact Or.inl ⟨0, h⟩
    · exact Or.inr (Or.inr h)
  | cons c rest ih =>
    intro h
    simp only [streamLoop] at h
    by_cases hc : c.isEmpty
    · rw [if_pos hc] at h
      simp only [List.mem_cons, List.not_mem_nil, or_false] at h
      rcases h with h | h
      · exact Or.inl ⟨0, h⟩
      · exact Or.inr (Or.inr h)
    · rw [if_neg hc] at h
      simp only [List.mem_cons] at h
      rcases h with h | h | h
      · exact Or.inl ⟨c.length, h⟩
      · exact Or.inr (Or.inl ⟨c, h⟩)
      · exact ih h

lemma loopExit_mem_streamLoop : ∀ chunks : List (List Nat), Ev.loopExit ∈ streamLoop chunks := by
  intro chunks
  induction chunks with
  | nil => simp [streamLoop]
  | cons c rest ih =>
    simp only [streamLoop]
    by_cases hc : c.isEmpty
    · simp [hc]
    · simp only [if_neg hc, List.mem_cons]
      exact Or.inr (Or.inr ih)

lemma mem_wait_cases {w : World} {e : Ev} (h : e ∈ (waitForNotificationPermission w).2) :
    e = Ev.callSettingsGet ∨ e = Ev.callDumpsys := by
  simp only [waitForNotificationPermission, List.mem_append, List.mem_replicate] at h
  rcases h with ⟨-, h⟩ | ⟨-, h⟩
  · exact Or.inl h
  · exact Or.inr h

lemma mem_setup_cases {w : World} {e : Ev} (h : e ∈ (setupApp w).1) :
    e = Ev.callPmList ∨ e = Ev.callInstall ∨ e = Ev.callAppops ∨
    e = Ev.callForward w.port ∨ e = Ev.callAmStart ∨ e = Ev.callSettingsGet ∨
    e = Ev.callDumpsys := by
  have key : e = Ev.callPmList ∨ e = Ev.callInstall ∨ e = Ev.callAppops ∨
      e = Ev.callForward w.port ∨ e = Ev.callAmStart ∨ e = Ev.callSettingsGet ∨
      e ∈ (waitForNotificationPermission w).2 := by
    by_cases ha : w.apkExists
    · by_cases hi : containsStr w.pmListOut packageName <;>
        by_cases hp : w.permInit <;>
          · simp only [setupApp, ha, hi, hp, if_true, if_false, Bool.false_eq_true,
              List.mem_append, List.mem_cons, List.not_mem_nil, List.nil_append,
              List.cons_append, or_false] at h
            tauto
    · simp [setupApp, ha] at h
  rcases key with h' | h' | h' | h' | h' | h' | h'
  all_goals first
  | tauto
  | (rcases mem_wait_cases h' with h2 | h2 <;> tauto)

lemma mem_cleanup_cases {a b : Bool} {e : Ev} (h : e ∈ cleanupEvs a b) :
    e = Ev.sinkClose ∨ e = Ev.pyaudioTerminate ∨ e = Ev.socketClose := by
  cases a <;> cases b <;> simp_all [cleanupEvs] <;> tauto

lemma setupApp_exit {w : World} (h : w.apkExists = true) : (setupApp w).2.1 = none := by
  by_cases hp : w.permInit <;> simp [setupApp, h, hp]

lemma setupApp_meta {w : World} (h : w.apkExists = true) (hp : w.permInit = false) :
    (setupApp w).2.2 = (pollPhase w.permPoll).1 := by
  simp [setupApp, h, hp, waitForNotificationPermission]

lemma callAppops_mem_setup {w : World} (h : w.apkExists = true) :
    Ev.callAppops ∈ (setupApp w).1 ∧ Ev.callForward w.port ∈ (setupApp w).1 ∧
    Ev.callAmStart ∈ (setupApp w).1 := by
  by_cases hi : containsStr w.pmListOut packageName <;>
    by_cases hp : w.permInit <;>
      simp [setupApp, h, hi, hp]

/-! Shapes of the full run trace, one per control path. -/

lemma runMain_adbFail {w : World} (h : adbOk w = false) :
    runMain w = ⟨[Ev.callAdbVersion], 1, false⟩ := by
  simp [runMain, checkAdb, cleanupEvs, h]

lemma runMain_deviceFail {w : World} (h1 : adbOk w = true) (h2 : deviceOk w = false) :
    runMain w = ⟨[Ev.callAdbVersion, Ev.callGetState], 1, false⟩ := by
  simp [runMain, checkAdb, checkDevice, cleanupEvs, h1, h2]

lemma runMain_apkMissing {w : World} (h1 : adbOk w = true) (h2 : deviceOk w = true)
    (h3 : w.apkExists = false) :
    runMain w = ⟨[Ev.callAdbVersion, Ev.callGetState], 1, false⟩ := by
  simp [runMain, checkAdb, checkDevice, setupApp, cleanupEvs, h1, h2, h3]

lemma runMain_connectFail {w : World} (h1 : adbOk w = true) (h2 : deviceOk w = true)
    (h3 : w.apkExists = true) (h4 : w.connectOk = false) :
    runMain w = ⟨Ev.callAdbVersion :: Ev.callGetState :: (setupApp w).1 ++
      [Ev.socketCreate, Ev.connectAttempt w.port, Ev.connectFail, Ev.socketClose],
      1, (setupApp w).2.2⟩ := by
  simp [runMain, checkAdb, checkDevice, connectStage, cleanupEvs, h1, h2, h4,
    setupApp_exit h3]

lemma runMain_full {w : World} (h1 : adbOk w = true) (h2 : deviceOk w = true)
    (h3 : w.apkExists = true) (h4 : w.connectOk = true) :
    runMain w = ⟨Ev.callAdbVersion :: Ev.callGetState :: (setupApp w).1 ++
      Ev.socketCreate :: Ev.connectAttempt w.port :: Ev.connectOk :: Ev.sinkOpen ::
        streamLoop w.chunks ++ [Ev.sinkClose, Ev.pyaudioTerminate, Ev.socketClose],
      0, (setupApp w).2.2⟩ := by
  simp [runMain, checkAdb, checkDevice, connectStage, streamStage, cleanupEvs, h1, h2, h4,
    setupApp_exit h3]

/-! Lemmas about the written-chunk projection of a trace. -/

lemma writesOf_append : ∀ a b : List Ev, writesOf (a ++ b) = writesOf a ++ writesOf b := by
  intro a b
  induction a with
  | nil => rfl
  | cons e rest ih =>
    cases e <;> simp [writesOf, ih]

lemma writesOf_eq_nil {l : List Ev} (h : ∀ c : List Nat, Ev.sinkWrite c ∉ l) :
    writesOf l = [] := by
  induction l with
  | nil => rfl
  | cons e rest ih =>
    have hrest : ∀ c : List Nat, Ev.sinkWrite c ∉ rest := by
      intro c hc
      exact h c (List.mem_cons_of_mem _ hc)
    cases e with
    | sinkWrite c => exact absurd (List.mem_cons_self _ _) (h c)
    | _ => simpa [writesOf] using ih hrest

lemma writesOf_streamLoop : ∀ chunks : List (List Nat), (∀ c ∈ chunks, c ≠ []) →
    writesOf (streamLoop chunks) = chunks := by
  intro chunks
  induction chunks with
  | nil => intro _; rfl
  | cons c rest ih =>
    intro h
    have hc : c ≠ [] := h c (List.mem_cons_self _ _)
    have hc' : c.isEmpty = false := by
      cases c with
      | nil => exact absurd rfl hc
      | cons x xs => rfl
    simp only [streamLoop, hc', if_neg, Bool.false_eq_true, writesOf]
    exact congrArg (c :: ·) (ih fun d hd => h d (List.mem_cons_of_mem _ hd))

lemma writesOf_setup (w : World) : writesOf (setupApp w).1 = [] := by
  apply writesOf_eq_nil
  intro c hc
  rcases mem_setup_cases hc with h | h | h | h | h | h | h <;> exact Ev.noConfusion h

/-! State-safety machinery for the resource invariant: `LoopSafe s l`
says that replaying the events of `l` from resource state `s`, every
playback-loop iteration happens in the state where both the socket and
the audio sink are open. -/

def LoopSafe : RState → List Ev → Prop
  | _, [] => True
  | s, e :: rest => (isLoopIter e = true → s = ⟨true, true⟩) ∧ LoopSafe (stepState s e) rest

lemma loopSafe_append : ∀ (a b : List Ev) (s : RState),
    LoopSafe s a → LoopSafe (a.foldl stepState s) b → LoopSafe s (a ++ b) := by
  intro a
  induction a with
  | nil => intro b s _ hb; exact hb
  | cons e rest ih =>
    intro b s ha hb
    exact ⟨ha.1, ih b (stepState s e) ha.2 hb⟩

lemma loopSafe_of_no_iter : ∀ (l : List Ev) (s : RState),
    (∀ e ∈ l, isLoopIter e = false) → LoopSafe s l := by
  intro l
  induction l with
  | nil => intro s _; trivial
  | cons e rest ih =>
    intro s h
    refine ⟨fun hi => ?_, ih (stepState s e) fun e' he' => h e' (List.mem_cons_of_mem _ he')⟩
    rw [h e (List.mem_cons_self _ _)] at hi
    exact absurd hi (by simp)

lemma loopSafe_streamLoop : ∀ chunks : List (List Nat),
    LoopSafe ⟨true, true⟩ (streamLoop chunks) := by
  intro chunks
  induction chunks with
  | nil => exact ⟨fun _ => rfl, fun _ => rfl, trivial⟩
  | cons c rest ih =>
    have e1 : streamLoop (c :: rest) =
        if c.isEmpty then [Ev.recv 0, Ev.loopExit]
        else Ev.recv c.length :: Ev.sinkWrite c :: streamLoop rest := rfl
    by_cases hc : c.isEmpty
    · rw [e1, if_pos hc]
      exact ⟨fun _ => rfl, fun _ => rfl, trivial⟩
    · rw [e1, if_neg hc]
      exact ⟨fun _ => rfl, fun _ => rfl, ih⟩

lemma foldl_stepState_neutral {l : List Ev} (h : ∀ e ∈ l, ∀ s : RState, stepState s e = s) :
    ∀ s : RState, l.foldl stepState s = s := by
  induction l with
  | nil => intro s; rfl
  | cons e rest ih =>
    intro s
    rw [List.foldl_cons, h e (List.mem_cons_self _ _) s]
    exact ih (fun e' he' s' => h e' (List.mem_cons_of_mem _ he') s') s

lemma setup_neutral {w : World} : ∀ e ∈ (setupApp w).1, ∀ s : RState, stepState s e = s := by
  intro e he s
  rcases mem_setup_cases he with h | h | h | h | h | h | h <;> subst h <;> rfl

lemma setup_no_iter {w : World} : ∀ e ∈ (setupApp w).1, isLoopIter e = false := by
  intro e he
  rcases mem_setup_cases he with h | h | h | h | h | h | h <;> subst h <;> rfl

lemma loopSafe_spec : ∀ (pre : List Ev) (e : Ev) (post l : List Ev) (s : RState),
    LoopSafe s l → l = pre ++ e :: post → isLoopIter e = true →
    pre.foldl stepState s = ⟨true, true⟩ := by
  intro pre
  induction pre with
  | nil =>
    intro e post l s hl hsplit hi
    subst hsplit
    exact hl.1 hi
  | cons a pre' ih =>
    intro e post l s hl hsplit hi
    subst hsplit
    exact ih e post _ (stepState s a) hl.2 rfl hi

/-- Replaying a run's trace from scratch, every playback-loop iteration
happens with both resources open: the key invariant behind C8. -/
lemma loopSafe_runMain (w : World) : LoopSafe ⟨false, false⟩ (runMain w).trace := by
  by_cases h1 : adbOk w
  · by_cases h2 : deviceOk w
    · by_cases h3 : w.apkExists
      · by_cases h4 : w.connectOk
        · rw [runMain_full h1 h2 h3 h4]
          refine ⟨fun hi => absurd hi (by simp [isLoopIter]), ?_⟩
          refine ⟨fun hi => absurd hi (by simp [isLoopIter]), ?_⟩
          show LoopSafe ⟨false, false⟩ (((setupApp w).1 ++ _) ++ _)
          rw [List.append_assoc]
          refine loopSafe_append _ _ _ (loopSafe_of_no_iter _ _ setup_no_iter) ?_
          rw [foldl_stepState_neutral setup_neutral]
          refine ⟨fun hi => absurd hi (by simp [isLoopIter]), ?_⟩
          refine ⟨fun hi => absurd hi (by simp [isLoopIter]), ?_⟩
          refine ⟨fun hi => absurd hi (by simp [isLoopIter]), ?_⟩
          refine ⟨fun hi => absurd hi (by simp [isLoopIter]), ?_⟩
          show LoopSafe ⟨true, true⟩ (streamLoop w.chunks ++ _)
          refine loopSafe_append _ _ _ (loopSafe_streamLoop _) ?_
          have hneutral : ∀ e ∈ streamLoop w.chunks, ∀ s : RState, stepState s e = s := by
            intro e he s
            rcases mem_streamLoop_cases he with ⟨n, h⟩ | ⟨c, h⟩ | h <;> subst h <;> rfl
          rw [foldl_stepState_neutral hneutral]
          exact ⟨fun hi => absurd hi (by simp [isLoopIter]),
            fun hi => absurd hi (by simp [isLoopIter]),
            fun hi => absurd hi (by simp [isLoopIter]), trivial⟩
        · rw [runMain_connectFail h1 h2 h3 (by simpa using h4)]
          refine ⟨fun hi => absurd hi (by simp [isLoopIter]), ?_⟩
          refine ⟨fun hi => absurd hi (by simp [isLoopIter]), ?_⟩
          show LoopSafe ⟨false, false⟩ ((setupApp w).1 ++ _)
          refine loopSafe_append _ _ _ (loopSafe_of_no_iter _ _ setup_no_iter) ?_
          exact loopSafe_of_no_iter _ _ (by intro e he; fin_cases he <;> rfl)
      · rw [runMain_apkMissing h1 h2 (by simpa using h3)]
        exact loopSafe_of_no_iter _ _ (by intro e he; fin_cases he <;> rfl)
    · rw [runMain_deviceFail h1 (by simpa using h2)]
      exact loopSafe_of_no_iter _ _ (by intro e he; fin_cases he <;> rfl)
  · rw [runMain_adbFail (by simpa using h1)]
    exact loopSafe_of_no_iter _ _ (by intro e he; fin_cases he <;> rfl)

/-- Over-approximation of the events a full run can contain, used to
settle non-membership and port-uniqueness questions. -/
lemma mem_runMain_cases {w : World} {e : Ev} (h : e ∈ (runMain w).trace) :
    e = Ev.callAdbVersion ∨ e = Ev.callGetState ∨ e ∈ (setupApp w).1 ∨
    e = Ev.socketCreate ∨ e = Ev.connectAttempt w.port ∨ e = Ev.connectOk ∨
    e = Ev.connectFail ∨ e = Ev.sinkOpen ∨ e ∈ streamLoop w.chunks ∨
    e = Ev.sinkClose ∨ e = Ev.pyaudioTerminate ∨ e = Ev.socketClose := by
  by_cases h1 : adbOk w
  · by_cases h2 : deviceOk w
    · by_cases h3 : w.apkExists
      · by_cases h4 : w.connectOk
        · rw [runMain_full h1 h2 h3 h4] at h
          simp only [List.mem_cons, List.mem_append, List.not_mem_nil, or_false] at h
          tauto
        · rw [runMain_connectFail h1 h2 h3 (by simpa using h4)] at h
          simp only [List.mem_cons, List.mem_append, List.not_mem_nil, or_false] at h
          tauto
      · rw [runMain_apkMissing h1 h2 (by simpa using h3)] at h
        simp only [List.mem_cons, List.not_mem_nil, or_false] at h
        tauto
    · rw [runMain_deviceFail h1 (by simpa using h2)] at h
      simp only [List.mem_cons, List.not_mem_nil, or_false] at h
      tauto
  · rw [runMain_adbFail (by simpa using h1)] at h
    simp only [List.mem_cons, List.not_mem_nil, or_false] at h
    tauto

lemma callInstall_not_mem_setup {w : World} (h : containsStr w.pmListOut packageName = true) :
    Ev.callInstall ∉ (setupApp w).1 := by
  intro hmem
  by_cases ha : w.apkExists
  · by_cases hp : w.permInit
    · simp [setupApp, ha, hp, h] at hmem
    · simp only [setupApp, ha, hp, h, if_true, if_false, Bool.false_eq_true,
        List.nil_append, List.mem_append, List.mem_cons, List.not_mem_nil, or_false] at hmem
      rcases hmem with hm | hm
      · tauto
      · rcases mem_wait_cases hm with hm | hm <;> exact Ev.noConfusion hm
  · simp [setupApp, ha] at hmem

lemma pollPhaseAux_le (poll : Nat → Bool) : ∀ r k, (pollPhaseAux poll k r).2 ≤ k + r := by
  intro r
  induction r with
  | zero => intro k; simp [pollPhaseAux]
  | succ r ih =>
    intro k
    by_cases hk : poll k
    · simp only [pollPhaseAux, hk, if_true]
      omega
    · simp only [pollPhaseAux, hk, if_false, Bool.false_eq_true]
      have := ih (k + 1)
      omega

lemma pollPhaseAux_false (poll : Nat → Bool) (h : ∀ k, poll k = false) :
    ∀ r k, (pollPhaseAux poll k r).1 = false := by
  intro r
  induction r with
  | zero => intro k; rfl
  | succ r ih =>
    intro k
    simp only [pollPhaseAux, h k, if_false, Bool.false_eq_true]
    exact ih (k + 1)

/-! Concrete environments used by witnesses and counterexamples. -/

/-- Steady-state environment: adb works, a device is ready, the app is
already installed, the notification permission is already granted, the
connect succeeds and the peer sends two chunks then closes. -/
def wStream : World :=
  { port := 28200, adbInvocable := true, adbVersionRc := 0,
    getStateOut := "device", apkExists := true,
    pmListOut := "package:com.rom1v.sndcpy", installRc := 0,
    appopsRc := 0, forwardRc := 0, amStartRc := 0,
    permInit := true, permPoll := fun _ => false, servicePoll := fun _ => false,
    connectOk := true, chunks := [[1, 2], [3]] }

/-- C1: when provisioning and the stage-3 connect succeed and the peer
sends its (nonempty) chunks and then closes, the playback loop writes
exactly those chunks, in order, to the audio sink, leaves the loop
normally on the zero-length read, and the process exits with status 0. -/
theorem c1_playback_writes_exact_bytes (w : World)
    (h1 : adbOk w = true) (h2 : deviceOk w = true) (h3 : w.apkExists = true)
    (h4 : w.connectOk = true) (h5 : ∀ c ∈ w.chunks, c ≠ []) :
    writesOf (runMain w).trace = w.chunks ∧ Ev.loopExit ∈ (runMain w).trace ∧
    (runMain w).exitCode = 0 := by
  rw [runMain_full h1 h2 h3 h4]
  refine ⟨?_, ?_, rfl⟩
  · show writesOf (((setupApp w).1 ++ _) ++ _) = w.chunks
    rw [writesOf_append, writesOf_append, writesOf_setup]
    have hC : writesOf [Ev.sinkClose, Ev.pyaudioTerminate, Ev.socketClose] = [] := rfl
    rw [hC]
    show ([] ++ writesOf (streamLoop w.chunks)) ++ [] = w.chunks
    rw [List.nil_append, List.append_nil]
    exact writesOf_streamLoop w.chunks h5
  · have hmem := loopExit_mem_streamLoop w.chunks
    simp only [List.mem_cons, List.mem_append]
    tauto

/-- C1 witness: a run in which the peer sends `[1, 2]` then `[3]` then
closes. -/
theorem c1_playback_writes_exact_bytes_witness :
    writesOf (runMain wStream).trace = [[1, 2], [3]] ∧
    Ev.loopExit ∈ (runMain wStream).trace ∧ (runMain wStream).exitCode = 0 :=
  c1_playback_writes_exact_bytes wStream (by decide) (by decide) (by decide)
    (by decide) (by decide)

/-- C2: when provisioning completes but the stage-3 connect fails, the
process exits with status 1, the audio sink is never opened and no read
from the socket ever happens. -/
theorem c2_connect_failure_fatal (w : World)
    (h1 : adbOk w = true) (h2 : deviceOk w = true) (h3 : w.apkExists = true)
    (h4 : w.connectOk = false) :
    (runMain w).exitCode = 1 ∧ Ev.sinkOpen ∉ (runMain w).trace ∧
    ∀ n, Ev.recv n ∉ (runMain w).trace := by
  have hmemc : ∀ e ∈ (runMain w).trace, e = Ev.callAdbVersion ∨ e = Ev.callGetState ∨
      e ∈ (setupApp w).1 ∨ e = Ev.socketCreate ∨ e = Ev.connectAttempt w.port ∨
      e = Ev.connectFail ∨ e = Ev.socketClose := by
    intro e he
    rw [runMain_connectFail h1 h2 h3 h4] at he
    simp only [List.mem_cons, List.mem_append, List.not_mem_nil, or_false] at he
    tauto
  refine ⟨by rw [runMain_connectFail h1 h2 h3 h4], ?_, ?_⟩
  · intro hmem
    rcases hmemc _ hmem with h | h | h | h | h | h | h
    case inr.inr.inl =>
      rcases mem_setup_cases h with h | h | h | h | h | h | h <;> exact Ev.noConfusion h
    all_goals exact Ev.noConfusion h
  · intro n hmem
    rcases hmemc _ hmem with h | h | h | h | h | h | h
    case inr.inr.inl =>
      rcases mem_setup_cases h with h | h | h | h | h | h | h <;> exact Ev.noConfusion h
    all_goals exact Ev.noConfusion h

/-- C2 witness: the same steady-state environment but with nothing
listening on the forwarded port. -/
theorem c2_connect_failure_fatal_witness :
    (runMain { wStream with connectOk := false }).exitCode = 1 ∧
    Ev.sinkOpen ∉ (runMain { wStream with connectOk := false }).trace ∧
    Ev.recv 0 ∉ (runMain { wStream with connectOk := false }).trace := by
  have h := c2_connect_failure_fatal { wStream with connectOk := false }
    (by decide) (by decide) (by decide) rfl
  exact ⟨h.1, h.2.1, h.2.2 0⟩

/-- C3: when adb is unreachable or not invocable, the process exits with
status 1 after the version probe alone: the whole trace is that probe,
so no device-state query, install, forward or launch is ever issued. -/
theorem c3_missing_adb_exits_before_device_interaction (w : World)
    (h : adbOk w = false) :
    (runMain w).exitCode = 1 ∧ (runMain w).trace = [Ev.callAdbVersion] ∧
    Ev.callGetState ∉ (runMain w).trace ∧ Ev.callInstall ∉ (runMain w).trace ∧
    (∀ p, Ev.callForward p ∉ (runMain w).trace) ∧
    Ev.callAmStart ∉ (runMain w).trace := by
  rw [runMain_adbFail h]
  exact ⟨rfl, rfl, by simp, by simp, fun p => by simp, by simp⟩

/-- C3 witness: the adb binary is missing. -/
theorem c3_missing_adb_exits_before_device_interaction_witness :
    (runMain { wStream with adbInvocable := false }).exitCode = 1 ∧
    (runMain { wStream with adbInvocable := false }).trace = [Ev.callAdbVersion] ∧
    Ev.callGetState ∉ (runMain { wStream with adbInvocable := false }).trace := by
  have h := c3_missing_adb_exits_before_device_interaction
    { wStream with adbInvocable := false } rfl
  exact ⟨h.1, h.2.1, h.2.2.1⟩

/-- C4: when the installed-packages query reports the package as already
present, no install command is ever issued during the run. -/
theorem c4_install_idempotent (w : World)
    (h : containsStr w.pmListOut packageName = true) :
    Ev.callInstall ∉ (runMain w).trace := by
  intro hmem
  rcases mem_runMain_cases hmem with hm | hm | hm | hm | hm | hm | hm | hm | hm | hm | hm | hm
  case inr.inr.inl => exact callInstall_not_mem_setup h hm
  case inr.inr.inr.inr.inr.inr.inr.inr.inl =>
    rcases mem_streamLoop_cases hm with ⟨n, hn⟩ | ⟨c, hc⟩ | hl <;> exact Ev.noConfusion ‹_›
  all_goals exact Ev.noConfusion hm

/-- C4 witness: the package listing already contains the package name. -/
theorem c4_install_idempotent_witness : Ev.callInstall ∉ (runMain wStream).trace :=
  c4_install_idempotent wStream (by decide)

/-- C5 counterexample: a run in which the package is absent, the install
command fails (return code 1), and yet the run does not exit early: it
continues through the permission-grant, forward and launch steps and
finishes with exit status 0.  This refutes "the process treats
[installation failure] as fatal and exits early". -/
theorem c5_install_failure_fatal_counterexample :
    (runMain { wStream with pmListOut := "", installRc := 1 }).exitCode = 0 ∧
    Ev.callInstall ∈ (runMain { wStream with pmListOut := "", installRc := 1 }).trace ∧
    Ev.callAppops ∈ (runMain { wStream with pmListOut := "", installRc := 1 }).trace ∧
    Ev.callForward 28200 ∈ (runMain { wStream with pmListOut := "", installRc := 1 }).trace := by
  refine ⟨by decide, by decide, by decide, by decide⟩

/-- C5 amended: the install, permission-grant and port-forward results
are all captured without being branched on — no failure of any of the
three is fatal, and the run is byte-for-byte independent of their return
codes; provisioning always continues to the grant, forward and launch
steps. -/
theorem c5_provisioning_failures_nonfatal (w : World) (r1 r2 r3 : Nat) :
    runMain { w with installRc := r1, appopsRc := r2, forwardRc := r3 } = runMain w ∧
    (adbOk w = true → deviceOk w = true → w.apkExists = true →
      Ev.callAppops ∈ (runMain w).trace ∧ Ev.callForward w.port ∈ (runMain w).trace ∧
      Ev.callAmStart ∈ (runMain w).trace) := by
  refine ⟨rfl, fun h1 h2 h3 => ?_⟩
  obtain ⟨ha, hf, hm⟩ := callAppops_mem_setup (w := w) h3
  by_cases h4 : w.connectOk
  · rw [runMain_full h1 h2 h3 h4]
    refine ⟨?_, ?_, ?_⟩ <;> (simp only [List.mem_cons, List.mem_append]; tauto)
  · rw [runMain_connectFail h1 h2 h3 (by simpa using h4)]
    refine ⟨?_, ?_, ?_⟩ <;> (simp only [List.mem_cons, List.mem_append]; tauto)

/-- C5 amended witness: concrete return codes 5, 6, 7 leave the run
unchanged, and the grant, forward and launch steps all happen. -/
theorem c5_provisioning_failures_nonfatal_witness :
    runMain { wStream with installRc := 5, appopsRc := 6, forwardRc := 7 } = runMain wStream ∧
    Ev.callAppops ∈ (runMain wStream).trace ∧
    Ev.callForward wStream.port ∈ (runMain wStream).trace ∧
    Ev.callAmStart ∈ (runMain wStream).trace := by
  have h := c5_provisioning_failures_nonfatal wStream 5 6 7
  exact ⟨h.1, h.2 (by decide) (by decide) (by decide)⟩

/-- C6 counterexample: the APK file is absent and the run does exit with
status 1, but two subprocess calls (the adb version probe and the
device-state query) are issued before the APK check, refuting "issues no
subprocess calls". -/
theorem c6_no_subprocess_calls_counterexample :
    (runMain { wStream with apkExists := false }).exitCode = 1 ∧
    Ev.callAdbVersion ∈ (runMain { wStream with apkExists := false }).trace ∧
    Ev.callGetState ∈ (runMain { wStream with apkExists := false }).trace := by
  refine ⟨by decide, by decide, by decide⟩

/-- C6 amended: when the APK path does not exist the process exits with
status 1 and issues no provisioning subprocess call — no package query,
no install, no permission grant, no forward, no launch — and never
creates the socket; only the environment checks (adb version and
device state) can precede the exit. -/
theorem c6_missing_apk_exits_before_provisioning (w : World)
    (h : w.apkExists = false) :
    (runMain w).exitCode = 1 ∧ Ev.callPmList ∉ (runMain w).trace ∧
    Ev.callInstall ∉ (runMain w).trace ∧ Ev.callAppops ∉ (runMain w).trace ∧
    (∀ p, Ev.callForward p ∉ (runMain w).trace) ∧
    Ev.callAmStart ∉ (runMain w).trace ∧ Ev.socketCreate ∉ (runMain w).trace := by
  by_cases h1 : adbOk w
  · by_cases h2 : deviceOk w
    · rw [runMain_apkMissing h1 h2 h]
      exact ⟨rfl, by simp, by simp, by simp, fun p => by simp, by simp, by simp⟩
    · rw [runMain_deviceFail h1 (by simpa using h2)]
      exact ⟨rfl, by simp, by simp, by simp, fun p => by simp, by simp, by simp⟩
  · rw [runMain_adbFail (by simpa using h1)]
    exact ⟨rfl, by simp, by simp, by simp, fun p => by simp, by simp, by simp⟩

/-- C6 amended witness: APK path absent in the steady-state environment. -/
theorem c6_missing_apk_exits_before_provisioning_witness :
    (runMain { wStream with apkExists := false }).exitCode = 1 ∧
    Ev.callInstall ∉ (runMain { wStream with apkExists := false }).trace ∧
    Ev.callForward 28200 ∉ (runMain { wStream with apkExists := false }).trace := by
  have h := c6_missing_apk_exits_before_provisioning { wStream with apkExists := false } rfl
  exact ⟨h.1, h.2.2.1, h.2.2.2.2.1 28200⟩

/-- C7 counterexample: an invocation of the form `<path> <serial>` does
not parse — the second positional is an unrecognized argument and
argparse exits — refuting "the CLI accepts the device serial selector as
a second positional argument". -/
theorem c7_serial_positional_counterexample :
    parseArgs ["sndcpy.apk", "SER123"] = none := by decide

/-- C7 amended: the device serial selector is not positional: it is
supplied with the `-s` or `--serial` option; the only positional is the
capture-app package path (default `"sndcpy.apk"`); omitting the option
defaults the serial to none, and a given serial becomes the `-s` device
filter of every adb invocation. -/
theorem c7_serial_is_an_option :
    parseArgs [] = some ⟨"sndcpy.apk", none, 28200, false⟩ ∧
    parseArgs ["p.apk"] = some ⟨"p.apk", none, 28200, false⟩ ∧
    parseArgs ["p.apk", "-s", "SER123"] = some ⟨"p.apk", some "SER123", 28200, false⟩ ∧
    parseArgs ["p.apk", "--serial", "SER123"] = some ⟨"p.apk", some "SER123", 28200, false⟩ ∧
    adbCmdOf (some "SER123") = ["adb", "-s", "SER123"] ∧
    adbCmdOf none = ["adb"] := by
  refine ⟨by decide, by decide, by decide, by decide, rfl, rfl⟩

/-- C8 counterexample: in a successful run, the state reached after the
first 10 events (right after the socket connect succeeds, before the
audio sink is opened) has the Stream Connection open and the Audio Sink
closed — a reachable state in which the two are neither both open nor
both closed, refuting "in every reachable state … either both open or
both closed". -/
theorem c8_both_open_or_closed_counterexample :
    ((runMain wStream).trace.take 10).foldl stepState ⟨false, false⟩ = ⟨true, false⟩ ∧
    10 < (runMain wStream).trace.length := by
  refine ⟨by decide, by decide⟩

/-- C8 amended: the playback loop never executes an iteration (a socket
read or a sink write) unless the Stream Connection and the Audio Sink
are both open; the mixed states are transient and occur only outside
the loop (after the connect succeeds but before the sink opens, and
during teardown). -/
theorem c8_loop_iterations_need_both_open (w : World) (pre : List Ev) (e : Ev)
    (post : List Ev) (hsplit : (runMain w).trace = pre ++ e :: post)
    (hiter : isLoopIter e = true) :
    pre.foldl stepState ⟨false, false⟩ = ⟨true, true⟩ :=
  loopSafe_spec pre e post (runMain w).trace ⟨false, false⟩
    (loopSafe_runMain w) hsplit hiter

/-- Prefix of the steady-state trace up to (excluding) its first read. -/
def pre8 : List Ev :=
  [Ev.callAdbVersion, Ev.callGetState, Ev.callPmList, Ev.callAppops,
   Ev.callForward 28200, Ev.callAmStart, Ev.callSettingsGet, Ev.socketCreate,
   Ev.connectAttempt 28200, Ev.connectOk, Ev.sinkOpen]

/-- Suffix of the steady-state trace after its first read. -/
def post8 : List Ev :=
  [Ev.sinkWrite [1, 2], Ev.recv 1, Ev.sinkWrite [3], Ev.recv 0, Ev.loopExit,
   Ev.sinkClose, Ev.pyaudioTerminate, Ev.socketClose]

/-- C8 amended witness: the first read of the steady-state run happens
with both resources open. -/
theorem c8_loop_iterations_need_both_open_witness :
    (runMain wStream).trace = pre8 ++ Ev.recv 2 :: post8 ∧
    pre8.foldl stepState ⟨false, false⟩ = ⟨true, true⟩ :=
  ⟨by decide, c8_loop_iterations_need_both_open wStream pre8 (Ev.recv 2) post8
    (by decide) rfl⟩

/-- C9: the notification-permission wait always terminates within its
ceiling — each of the two poll loops makes at most
`max_wait_time / check_interval = 15` polls — and its timeout is never
fatal: with the APK present the run always proceeds to the connection
stage (the socket is created), the exit status is decided solely by the
connect and stream stages, and if no poll ever sees the permission the
run merely continues with metadata features disabled. -/
theorem c9_permission_wait_bounded_and_nonfatal (w : World)
    (h1 : adbOk w = true) (h2 : deviceOk w = true) (h3 : w.apkExists = true)
    (hp : w.permInit = false) :
    (pollPhase w.permPoll).2 ≤ maxPolls ∧ (pollPhase w.servicePoll).2 ≤ maxPolls ∧
    Ev.socketCreate ∈ (runMain w).trace ∧
    ((∀ k, w.permPoll k = false) → (runMain w).meta = false) ∧
    (runMain w).exitCode = (if w.connectOk then 0 else 1) := by
  refine ⟨by simpa using pollPhaseAux_le w.permPoll maxPolls 0,
    by simpa using pollPhaseAux_le w.servicePoll maxPolls 0, ?_, ?_, ?_⟩
  · by_cases h4 : w.connectOk
    · rw [runMain_full h1 h2 h3 h4]
      simp only [List.mem_cons, List.mem_append]
      tauto
    · rw [runMain_connectFail h1 h2 h3 (by simpa using h4)]
      simp only [List.mem_cons, List.mem_append, List.not_mem_nil, or_false]
      tauto
  · intro hnone
    have hm : (setupApp w).2.2 = false := by
      rw [setupApp_meta h3 hp]
      exact pollPhaseAux_false w.permPoll hnone maxPolls 0
    by_cases h4 : w.connectOk
    · rw [runMain_full h1 h2 h3 h4]; exact hm
    · rw [runMain_connectFail h1 h2 h3 (by simpa using h4)]; exact hm
  · by_cases h4 : w.connectOk
    · rw [runMain_full h1 h2 h3 h4, if_pos h4]
    · rw [runMain_connectFail h1 h2 h3 (by simpa using h4), if_neg h4]

/-- C9 witness: the steady-state environment with the permission not yet
granted and no poll ever succeeding. -/
theorem c9_permission_wait_bounded_and_nonfatal_witness :
    (pollPhase { wStream with permInit := false }.permPoll).2 ≤ maxPolls ∧
    Ev.socketCreate ∈ (runMain { wStream with permInit := false }).trace ∧
    (runMain { wStream with permInit := false }).meta = false ∧
    (runMain { wStream with permInit := false }).exitCode = 0 := by
  have h := c9_permission_wait_bounded_and_nonfatal { wStream with permInit := false }
    (by decide) (by decide) (by decide) rfl
  exact ⟨h.1, h.2.2.1, h.2.2.2.1 (fun k => rfl), h.2.2.2.2⟩

/-- C10: a single configured port value is used for both the stage-2
port-forward command and the stage-3 connect: every forward event and
every connect-attempt event in any run carries exactly the session
configuration's port, so a forward/connect mismatch is impossible. -/
theorem c10_forward_and_connect_use_same_port (w : World) (p : Nat) :
    (Ev.callForward p ∈ (runMain w).trace → p = w.port) ∧
    (Ev.connectAttempt p ∈ (runMain w).trace → p = w.port) := by
  constructor
  · intro hmem
    rcases mem_runMain_cases hmem with hm | hm | hm | hm | hm | hm | hm | hm | hm | hm | hm | hm
    case inr.inr.inl =>
      rcases mem_setup_cases hm with h | h | h | h | h | h | h
      case inr.inr.inr.inl => exact (Ev.callForward.injEq _ _).mp h
      all_goals exact Ev.noConfusion h
    case inr.inr.inr.inr.inr.inr.inr.inr.inl =>
      rcases mem_streamLoop_cases hm with ⟨n, hn⟩ | ⟨c, hc⟩ | hl <;> exact Ev.noConfusion ‹_›
    all_goals exact Ev.noConfusion hm
  · intro hmem
    rcases mem_runMain_cases hmem with hm | hm | hm | hm | hm | hm | hm | hm | hm | hm | hm | hm
    case inr.inr.inl =>
      rcases mem_setup_cases hm with h | h | h | h | h | h | h <;> exact Ev.noConfusion h
    case inr.inr.inr.inr.inl => exact (Ev.connectAttempt.injEq _ _).mp hm
    case inr.inr.inr.inr.inr.inr.inr.inr.inl =>
      rcases mem_streamLoop_cases hm with ⟨n, hn⟩ | ⟨c, hc⟩ | hl <;> exact Ev.noConfusion ‹_›
    all_goals exact Ev.noConfusion hm

/-- C10 witness: in the steady-state run, both the forward and the
connect use port 28200, the configured value. -/
theorem c10_forward_and_connect_use_same_port_witness :
    Ev.callForward 28200 ∈ (runMain wStream).trace ∧ 28200 = wStream.port ∧
    Ev.connectAttempt 28200 ∈ (runMain wStream).trace :=
  ⟨by decide, (c10_forward_and_connect_use_same_port wStream 28200).1 (by decide),
    by decide⟩

end Sndcpy
